import Mathlib

/-!
Verification development for the Mesa Fácil call-escalation core.

The repository contains two variants of the data hook exporting the same
operation names: `src/hooks/useMockData.ts` (suffix `_hooks` below) and the
unnamed source file `src/unnamed/part_002` (suffix `_p2` below).  Both are
embedded faithfully; timestamps and second-valued thresholds are rationals
(JavaScript numbers), counts are naturals, and the remote store is explicit
state threaded through each operation.
-/

attribute [local semireducible] Rat.sub Rat.mul Rat.add Rat.inv

namespace MesaFacil

/-- Call status, from `src/types` (the file is absent from `src/`; the four
values are the ones used throughout both hook variants and §3 of the spec:
`SENT → VIEWED → ATTENDED | CANCELED`). -/
inductive CallStatus where
  | SENT
  | VIEWED
  | ATTENDED
  | CANCELED
deriving DecidableEq, Repr

/-- Modelled from the spec: call types are "enumerated: e.g. WAITER, BILL, …"
(§3); the concrete enumeration lives in the missing `src/types`.  Three
constructors suffice for every claim, which only needs decidable equality. -/
inductive CallType where
  | WAITER
  | BILL
  | OTHER
deriving DecidableEq, Repr

/-- Semaphore status, from `src/types` (missing; values per §3 of the spec and
both variants of the escalation calculators). -/
inductive SemaphoreStatus where
  | IDLE
  | GREEN
  | YELLOW
  | RED
deriving DecidableEq, Repr

/-- Urgency order IDLE < GREEN < YELLOW < RED, as a numeric rank. -/
def SemaphoreStatus.rank : SemaphoreStatus → ℕ
  | .IDLE => 0
  | .GREEN => 1
  | .YELLOW => 2
  | .RED => 3

/-- An in-memory call (`Call` of `src/types`): `createdAt` is the epoch-millis
creation timestamp, kept as a rational because the calculators divide by 1000. -/
structure Call where
  id : String
  type : CallType
  status : CallStatus
  createdAt : ℚ
deriving DecidableEq, Repr

/-- A table: number plus its list of calls (`Table` of `src/types`). -/
structure Table where
  number : String
  calls : List Call
deriving DecidableEq, Repr

/-- Per-establishment settings (`Settings` of `src/types`): time thresholds in
seconds, quantity thresholds as counts. -/
structure Settings where
  totalTables : ℕ
  timeGreen : ℚ
  timeYellow : ℚ
  qtyGreen : ℕ
  qtyYellow : ℕ
deriving DecidableEq, Repr

/-! ## EscalationCalculator: the two in-repo variants -/

/-- `getTableSemaphoreStatus` of `src/hooks/useMockData.ts` (lines 433-441):
filter to SENT/VIEWED, take the reduce-minimum `createdAt`, and apply the time
rule only.  `now` stands for `Date.now()`. -/
def getTableSemaphoreStatus_hooks (table : Table) (settings : Settings) (now : ℚ) :
    SemaphoreStatus :=
  let active := table.calls.filter fun c => c.status = .SENT ∨ c.status = .VIEWED
  match active with
  | [] => .IDLE
  | a :: rest =>
    let oldest := rest.foldl (fun x b => if x.createdAt < b.createdAt then x else b) a
    let elapsed := (now - oldest.createdAt) / 1000
    if elapsed > settings.timeYellow then .RED
    else if elapsed > settings.timeGreen then .YELLOW
    else .GREEN

/-- `getTableSemaphoreStatus` of `src/unnamed/part_002` (lines 492-516): filter
out terminal statuses, reduce-minimum `createdAt`, group active calls by type,
and combine the time window with the per-type-count window by OR. -/
def getTableSemaphoreStatus_p2 (table : Table) (settings : Settings) (now : ℚ) :
    SemaphoreStatus :=
  let activeCalls := table.calls.filter fun c =>
    c.status ≠ .ATTENDED ∧ c.status ≠ .CANCELED
  match activeCalls with
  | [] => .IDLE
  | a :: rest =>
    let oldestCall := rest.foldl
      (fun oldest current => if current.createdAt < oldest.createdAt then current else oldest) a
    let timeElapsed : ℚ := (now - oldestCall.createdAt) / 1000
    let types : List CallType := ((a :: rest).map (fun c => c.type)).dedup
    let countOf : CallType → ℕ := fun ty => ((a :: rest).filter fun c => c.type = ty).length
    if timeElapsed > settings.timeYellow ∨ (∃ ty ∈ types, countOf ty > settings.qtyYellow)
    then .RED
    else if (timeElapsed > settings.timeGreen ∧ timeElapsed ≤ settings.timeYellow) ∨
        (∃ ty ∈ types, countOf ty > settings.qtyGreen ∧ countOf ty ≤ settings.qtyYellow)
    then .YELLOW
    else .GREEN

/-- The active calls of one type on a table, the filter shared verbatim by both
`getCallTypeSemaphoreStatus` variants (`c.type === type && (SENT || VIEWED)`). -/
def activeOfType (table : Table) (callType : CallType) : List Call :=
  table.calls.filter fun c =>
    c.type = callType ∧ (c.status = .SENT ∨ c.status = .VIEWED)

/-- `getCallTypeSemaphoreStatus` of `src/hooks/useMockData.ts` (lines 442-449):
takes `active[0]` (the first listed matching call, not the oldest) and returns
only RED (past `timeYellow`) or GREEN — it has no YELLOW branch. -/
def getCallTypeSemaphoreStatus_hooks (table : Table) (callType : CallType)
    (settings : Settings) (now : ℚ) : SemaphoreStatus :=
  match activeOfType table callType with
  | [] => .IDLE
  | oldest :: _ =>
    let elapsed := (now - oldest.createdAt) / 1000
    if elapsed > settings.timeYellow then .RED else .GREEN

/-- `getCallTypeSemaphoreStatus` of `src/unnamed/part_002` (lines 518-537):
reduce-minimum `createdAt` (seeded with `callsOfType[0]`), then the same
time-OR-quantity rule with the count of calls of this type. -/
def getCallTypeSemaphoreStatus_p2 (table : Table) (callType : CallType)
    (settings : Settings) (now : ℚ) : SemaphoreStatus :=
  match activeOfType table callType with
  | [] => .IDLE
  | a :: rest =>
    let oldestCall := (a :: rest).foldl
      (fun oldest current => if current.createdAt < oldest.createdAt then current else oldest) a
    let timeElapsed := (now - oldestCall.createdAt) / 1000
    let n := (a :: rest).length
    if timeElapsed > settings.timeYellow ∨ n > settings.qtyYellow then .RED
    else if (timeElapsed > settings.timeGreen ∧ timeElapsed ≤ settings.timeYellow) ∨
        (n > settings.qtyGreen ∧ n ≤ settings.qtyYellow)
    then .YELLOW
    else .GREEN

/-! ## Spec-side statements of the escalation rules -/

/-- Modelled from the spec (§4.1, steps 5-7): the four-state rule as a function
of the elapsed seconds and the maximum per-type active count. -/
def semaphoreRule (settings : Settings) (elapsed : ℚ) (maxCount : ℕ) : SemaphoreStatus :=
  if elapsed > settings.timeYellow ∨ maxCount > settings.qtyYellow then .RED
  else if (settings.timeGreen < elapsed ∧ elapsed ≤ settings.timeYellow) ∨
      (settings.qtyGreen < maxCount ∧ maxCount ≤ settings.qtyYellow)
  then .YELLOW
  else .GREEN

/-- Modelled from the spec (§4.1): `tableStatus` — active = SENT/VIEWED, elapsed
from the minimum `createdAt` (millis → seconds), `maxCount` = maximum per-type
count of active calls, then `semaphoreRule`. -/
def claimedTableStatus (table : Table) (settings : Settings) (now : ℚ) : SemaphoreStatus :=
  let active := table.calls.filter fun c => c.status = .SENT ∨ c.status = .VIEWED
  match active with
  | [] => .IDLE
  | a :: rest =>
    let minCreated := (rest.map (fun c => c.createdAt)).foldl min a.createdAt
    let elapsed := (now - minCreated) / 1000
    let counts := ((a :: rest).map (fun c => c.type)).dedup.map
      (fun ty => ((a :: rest).filter fun c => c.type = ty).length)
    semaphoreRule settings elapsed (counts.foldl max 0)

/-- Modelled from the spec: the pure time escalation — RED past `timeYellow`,
YELLOW strictly inside the `(timeGreen, timeYellow]` window, GREEN otherwise. -/
def timeWindowRule (settings : Settings) (elapsed : ℚ) : SemaphoreStatus :=
  if elapsed > settings.timeYellow then .RED
  else if settings.timeGreen < elapsed ∧ elapsed ≤ settings.timeYellow then .YELLOW
  else .GREEN

/-- Modelled from the spec (claim C2's time rule): the time-only escalation for
one call type, relative to the minimum `createdAt` of its active calls. -/
def claimedCallTypeTimeStatus (table : Table) (callType : CallType)
    (settings : Settings) (now : ℚ) : SemaphoreStatus :=
  match activeOfType table callType with
  | [] => .IDLE
  | a :: rest =>
    let minCreated := (rest.map (fun c => c.createdAt)).foldl min a.createdAt
    let elapsed := (now - minCreated) / 1000
    timeWindowRule settings elapsed

/-- Modelled from the spec: a table status that applies only the time rule,
relative to the minimum `createdAt` of the active calls — what the hooks
variant actually computes. -/
def timeOnlyTableStatus (table : Table) (settings : Settings) (now : ℚ) :
    SemaphoreStatus :=
  let active := table.calls.filter fun c => c.status = .SENT ∨ c.status = .VIEWED
  match active with
  | [] => .IDLE
  | a :: rest =>
    let minCreated := (rest.map (fun c => c.createdAt)).foldl min a.createdAt
    let elapsed := (now - minCreated) / 1000
    timeWindowRule settings elapsed

/-! ## List lemmas about the reduce-style minima and maxima -/

/-- The part_002-style reduce (`current.createdAt < oldest.createdAt ? current
: oldest`) computes the minimum `createdAt`. -/
lemma foldl_pick_min_p2 (a : Call) (rest : List Call) :
    (rest.foldl
      (fun oldest current => if current.createdAt < oldest.createdAt then current else oldest)
      a).createdAt
      = (rest.map (fun c => c.createdAt)).foldl min a.createdAt := by
  induction rest generalizing a with
  | nil => rfl
  | cons b l ih =>
    simp only [List.foldl_cons, List.map_cons]
    rw [ih]
    congr 1
    by_cases h : b.createdAt < a.createdAt
    · rw [if_pos h]
      exact (min_eq_right h.le).symm
    · rw [if_neg h]
      exact (min_eq_left (not_lt.mp h)).symm

/-- The hooks-style reduce (`a.createdAt < b.createdAt ? a : b`) also computes
the minimum `createdAt`. -/
lemma foldl_pick_min_hooks (a : Call) (rest : List Call) :
    (rest.foldl (fun x b => if x.createdAt < b.createdAt then x else b) a).createdAt
      = (rest.map (fun c => c.createdAt)).foldl min a.createdAt := by
  induction rest generalizing a with
  | nil => rfl
  | cons b l ih =>
    simp only [List.foldl_cons, List.map_cons]
    rw [ih]
    congr 1
    by_cases h : a.createdAt < b.createdAt
    · rw [if_pos h]
      exact (min_eq_left h.le).symm
    · rw [if_neg h]
      exact (min_eq_right (not_lt.mp h)).symm

/-- A `foldl max` bound, phrased through strict lower bounds. -/
lemma foldl_max_lt_iff (ns : List ℕ) (i q : ℕ) :
    q < ns.foldl max i ↔ q < i ∨ ∃ n ∈ ns, q < n := by
  induction ns generalizing i with
  | nil => simp
  | cons n l ih =>
    simp only [List.foldl_cons, ih, lt_max_iff, List.mem_cons]
    constructor
    · rintro ((h | h) | ⟨m, hm, hq⟩)
      · exact Or.inl h
      · exact Or.inr ⟨n, Or.inl rfl, h⟩
      · exact Or.inr ⟨m, Or.inr hm, hq⟩
    · rintro (h | ⟨m, (rfl | hm), hq⟩)
      · exact Or.inl (Or.inl h)
      · exact Or.inl (Or.inr hq)
      · exact Or.inr ⟨m, hm, hq⟩

/-- The spec's rule never answers IDLE (it is only reached with ≥ 1 active call). -/
lemma semaphoreRule_rank_pos (s : Settings) (e : ℚ) (m : ℕ) :
    1 ≤ (semaphoreRule s e m).rank := by
  unfold semaphoreRule
  split_ifs <;> simp [SemaphoreStatus.rank]

/-- Monotonicity of the spec's rule in both elapsed time and maximum count. -/
lemma semaphoreRule_rank_mono (s : Settings) {e1 e2 : ℚ} {m1 m2 : ℕ}
    (he : e1 ≤ e2) (hm : m1 ≤ m2) :
    (semaphoreRule s e1 m1).rank ≤ (semaphoreRule s e2 m2).rank := by
  have hred : (e1 > s.timeYellow ∨ m1 > s.qtyYellow) →
      (e2 > s.timeYellow ∨ m2 > s.qtyYellow) := by
    rintro (h | h)
    · exact Or.inl (lt_of_lt_of_le h he)
    · exact Or.inr (lt_of_lt_of_le h hm)
  unfold semaphoreRule
  by_cases h2 : e2 > s.timeYellow ∨ m2 > s.qtyYellow
  · rw [if_pos h2]
    split_ifs <;> simp [SemaphoreStatus.rank]
  · have h1 : ¬(e1 > s.timeYellow ∨ m1 > s.qtyYellow) := fun h => h2 (hred h)
    rw [if_neg h2, if_neg h1]
    push_neg at h2
    by_cases hy1 : (s.timeGreen < e1 ∧ e1 ≤ s.timeYellow) ∨
        (s.qtyGreen < m1 ∧ m1 ≤ s.qtyYellow)
    · have hy2 : (s.timeGreen < e2 ∧ e2 ≤ s.timeYellow) ∨
          (s.qtyGreen < m2 ∧ m2 ≤ s.qtyYellow) := by
        rcases hy1 with ⟨hg, _⟩ | ⟨hg, _⟩
        · exact Or.inl ⟨lt_of_lt_of_le hg he, h2.1⟩
        · exact Or.inr ⟨lt_of_lt_of_le hg hm, h2.2⟩
      rw [if_pos hy1, if_pos hy2]
    · rw [if_neg hy1]
      split_ifs <;> simp [SemaphoreStatus.rank]

/-- part_002's active filter (`status !== ATTENDED && status !== CANCELED`)
coincides with the SENT-or-VIEWED filter: there are only four statuses. -/
lemma filter_active_eq (l : List Call) :
    (l.filter fun c => c.status ≠ CallStatus.ATTENDED ∧ c.status ≠ CallStatus.CANCELED)
      = l.filter fun c => c.status = CallStatus.SENT ∨ c.status = CallStatus.VIEWED := by
  apply List.filter_congr
  intro c _
  cases c.status <;> rfl

/-- Existence of a per-type count above a bound is the same as the maximum
per-type count being above it. -/
lemma exists_type_count_gt_iff (l : List Call) (q : ℕ) :
    (∃ ty ∈ (l.map fun c => c.type).dedup, q < (l.filter fun c => c.type = ty).length)
      ↔ q < (((l.map fun c => c.type).dedup).map
          (fun ty => (l.filter fun c => c.type = ty).length)).foldl max 0 := by
  rw [foldl_max_lt_iff]
  simp only [Nat.not_lt_zero, false_or]
  constructor
  · rintro ⟨ty, hty, hq⟩
    exact ⟨_, List.mem_map_of_mem _ hty, hq⟩
  · rintro ⟨n, hn, hq⟩
    rcases List.mem_map.mp hn with ⟨ty, hty, rfl⟩
    exact ⟨ty, hty, hq⟩

/-- The part_002 table semaphore is exactly the spec's OR-combined
time/quantity rule. -/
lemma tableStatus_p2_eq_claimed (t : Table) (s : Settings) (now : ℚ) :
    getTableSemaphoreStatus_p2 t s now = claimedTableStatus t s now := by
  unfold getTableSemaphoreStatus_p2 claimedTableStatus
  rw [filter_active_eq]
  cases hl : t.calls.filter
      (fun c => c.status = CallStatus.SENT ∨ c.status = CallStatus.VIEWED) with
  | nil => rfl
  | cons a rest =>
    simp only [foldl_pick_min_p2, semaphoreRule]
    have hR := exists_type_count_gt_iff (a :: rest) s.qtyYellow
    have hG := exists_type_count_gt_iff (a :: rest) s.qtyGreen
    by_cases hr : (now - (rest.map (fun c => c.createdAt)).foldl min a.createdAt) / 1000
          > s.timeYellow ∨
        s.qtyYellow < (((a :: rest).map fun c => c.type).dedup.map
          (fun ty => ((a :: rest).filter fun c => c.type = ty).length)).foldl max 0
    · rw [if_pos (Or.elim hr Or.inl fun h => Or.inr (hR.mpr h)), if_pos hr]
    · rw [if_neg (fun hc => hr (Or.elim hc Or.inl fun h => Or.inr (hR.mp h))),
        if_neg hr]
      have hall : ∀ ty ∈ ((a :: rest).map fun c => c.type).dedup,
          ((a :: rest).filter fun c => c.type = ty).length ≤ s.qtyYellow := by
        intro ty hty
        by_contra hgt
        exact hr (Or.inr (hR.mp ⟨ty, hty, not_le.mp hgt⟩))
      have hmaxle : (((a :: rest).map fun c => c.type).dedup.map
          (fun ty => ((a :: rest).filter fun c => c.type = ty).length)).foldl max 0
            ≤ s.qtyYellow := by
        by_contra hgt
        exact hr (Or.inr (not_le.mp hgt))
      have hyiff : ((∃ ty ∈ ((a :: rest).map fun c => c.type).dedup,
            s.qtyGreen < ((a :: rest).filter fun c => c.type = ty).length ∧
            ((a :: rest).filter fun c => c.type = ty).length ≤ s.qtyYellow)) ↔
          (s.qtyGreen < (((a :: rest).map fun c => c.type).dedup.map
            (fun ty => ((a :: rest).filter fun c => c.type = ty).length)).foldl max 0 ∧
          (((a :: rest).map fun c => c.type).dedup.map
            (fun ty => ((a :: rest).filter fun c => c.type = ty).length)).foldl max 0
              ≤ s.qtyYellow) := by
        constructor
        · rintro ⟨ty, hty, hg, _⟩
          exact ⟨hG.mp ⟨ty, hty, hg⟩, hmaxle⟩
        · rintro ⟨hg, _⟩
          rcases hG.mpr hg with ⟨ty, hty, hgt⟩
          exact ⟨ty, hty, hgt, hall ty hty⟩
      by_cases hy : (s.timeGreen <
            (now - (rest.map (fun c => c.createdAt)).foldl min a.createdAt) / 1000 ∧
          (now - (rest.map (fun c => c.createdAt)).foldl min a.createdAt) / 1000
            ≤ s.timeYellow) ∨
          (s.qtyGreen < (((a :: rest).map fun c => c.type).dedup.map
            (fun ty => ((a :: rest).filter fun c => c.type = ty).length)).foldl max 0 ∧
          (((a :: rest).map fun c => c.type).dedup.map
            (fun ty => ((a :: rest).filter fun c => c.type = ty).length)).foldl max 0
              ≤ s.qtyYellow)
      · rw [if_pos (Or.elim hy Or.inl fun h => Or.inr (hyiff.mpr h)), if_pos hy]
      · rw [if_neg (fun hc => hy (Or.elim hc Or.inl fun h => Or.inr (hyiff.mp h))),
          if_neg hy]

/-- The time-window rule never answers IDLE. -/
lemma timeWindowRule_rank_pos (s : Settings) (e : ℚ) :
    1 ≤ (timeWindowRule s e).rank := by
  unfold timeWindowRule
  split_ifs <;> simp [SemaphoreStatus.rank]

/-- The time-window rule is monotone in elapsed time. -/
lemma timeWindowRule_rank_mono (s : Settings) {e1 e2 : ℚ} (he : e1 ≤ e2) :
    (timeWindowRule s e1).rank ≤ (timeWindowRule s e2).rank := by
  unfold timeWindowRule
  by_cases h1 : e1 > s.timeYellow
  · rw [if_pos h1, if_pos (lt_of_lt_of_le h1 he)]
  · rw [if_neg h1]
    by_cases h2 : e2 > s.timeYellow
    · rw [if_pos h2]
      split_ifs <;> simp [SemaphoreStatus.rank]
    · rw [if_neg h2]
      by_cases hy1 : s.timeGreen < e1 ∧ e1 ≤ s.timeYellow
      · rw [if_pos hy1, if_pos ⟨lt_of_lt_of_le hy1.1 he, not_lt.mp h2⟩]
      · rw [if_neg hy1]
        split_ifs <;> simp [SemaphoreStatus.rank]

/-- The hooks table semaphore equals the time-only rule from the minimum
`createdAt`: its reduce computes the same minimum, and inside the
not-yet-RED branch the bare `elapsed > timeGreen` test coincides with the
`(timeGreen, timeYellow]` window. -/
lemma tableStatus_hooks_eq_timeOnly (t : Table) (s : Settings) (now : ℚ) :
    getTableSemaphoreStatus_hooks t s now = timeOnlyTableStatus t s now := by
  unfold getTableSemaphoreStatus_hooks timeOnlyTableStatus timeWindowRule
  cases hl : t.calls.filter
      (fun c => c.status = CallStatus.SENT ∨ c.status = CallStatus.VIEWED) with
  | nil => rfl
  | cons a rest =>
    simp only [foldl_pick_min_hooks]
    by_cases h1 : (now - (rest.map (fun c => c.createdAt)).foldl min a.createdAt) / 1000
        > s.timeYellow
    · rw [if_pos h1, if_pos h1]
    · rw [if_neg h1, if_neg h1]
      by_cases h2 : (now - (rest.map (fun c => c.createdAt)).foldl min a.createdAt) / 1000
          > s.timeGreen
      · rw [if_pos h2, if_pos ⟨h2, not_lt.mp h1⟩]
      · rw [if_neg h2, if_neg (fun hc => h2 hc.1)]

/-- The concrete scenario shared by claims C1 and C2: thresholds
`timeGreen = 30`, `timeYellow = 90`, `qtyGreen = 2`, `qtyYellow = 4`. -/
def scenarioSettings : Settings := ⟨10, 30, 90, 2, 4⟩

/-- Scenario table for C1: three active WAITER calls raised 10 seconds before
`now = 10000` (created at epoch-millis 0). -/
def scenarioWaiterTable : Table :=
  ⟨"1", [⟨"c1", .WAITER, .SENT, 0⟩, ⟨"c2", .WAITER, .SENT, 0⟩, ⟨"c3", .WAITER, .SENT, 0⟩]⟩

/-- C1 (amended). The part_002 `getTableSemaphoreStatus` computes exactly the
claimed OR-combined rule — active = SENT/VIEWED, elapsed from the minimum
`createdAt`, maxCount = maximum per-type count, RED on
`elapsed > timeYellow ∨ maxCount > qtyYellow`, else YELLOW on either window,
else GREEN — and on the scenario (settings 30/90/2/4, three active WAITER
calls 10s old) it yields YELLOW.  The hooks `getTableSemaphoreStatus` instead
applies only the time rule, so the same scenario yields GREEN there. -/
theorem claim_C1 :
    (∀ (t : Table) (s : Settings) (now : ℚ),
        getTableSemaphoreStatus_p2 t s now = claimedTableStatus t s now) ∧
    (∀ (t : Table) (s : Settings) (now : ℚ),
        getTableSemaphoreStatus_hooks t s now = timeOnlyTableStatus t s now) ∧
    getTableSemaphoreStatus_p2 scenarioWaiterTable scenarioSettings 10000
      = SemaphoreStatus.YELLOW ∧
    getTableSemaphoreStatus_hooks scenarioWaiterTable scenarioSettings 10000
      = SemaphoreStatus.GREEN :=
  ⟨tableStatus_p2_eq_claimed, tableStatus_hooks_eq_timeOnly, by decide, by decide⟩

/-- C1 counterexample. On the claim's own scenario — settings
`{timeGreen 30, timeYellow 90, qtyGreen 2, qtyYellow 4}`, three active WAITER
calls created 10 seconds ago — the hooks variant of
`getTableSemaphoreStatus` answers GREEN, not the YELLOW the claim requires:
the quantity escalation path does not exist in that variant. -/
theorem claim_C1_cex :
    getTableSemaphoreStatus_hooks scenarioWaiterTable scenarioSettings 10000
        = SemaphoreStatus.GREEN ∧
    (SemaphoreStatus.GREEN ≠ SemaphoreStatus.YELLOW) ∧
    scenarioSettings.timeGreen = 30 ∧ scenarioSettings.timeYellow = 90 ∧
    scenarioSettings.qtyGreen = 2 ∧ scenarioSettings.qtyYellow = 4 := by
  exact ⟨by decide, by decide, rfl, rfl, rfl, rfl⟩

/-- The part_002 call-type semaphore is IDLE exactly when the table has no
active call of the type. -/
lemma callTypeStatus_p2_IDLE_iff (t : Table) (ty : CallType) (s : Settings) (now : ℚ) :
    getCallTypeSemaphoreStatus_p2 t ty s now = .IDLE ↔ activeOfType t ty = [] := by
  unfold getCallTypeSemaphoreStatus_p2
  cases h : activeOfType t ty with
  | nil => simp
  | cons a rest =>
    dsimp only
    split_ifs <;> simp

/-- The hooks call-type semaphore is IDLE exactly when the table has no active
call of the type. -/
lemma callTypeStatus_hooks_IDLE_iff (t : Table) (ty : CallType) (s : Settings) (now : ℚ) :
    getCallTypeSemaphoreStatus_hooks t ty s now = .IDLE ↔ activeOfType t ty = [] := by
  unfold getCallTypeSemaphoreStatus_hooks
  cases h : activeOfType t ty with
  | nil => simp
  | cons a rest =>
    dsimp only
    split_ifs <;> simp

/-- The part_002 call-type semaphore is at least as urgent as the pure time
rule taken from the minimum `createdAt` of the type's active calls. -/
lemma callTypeStatus_p2_rank_ge (t : Table) (ty : CallType) (s : Settings) (now : ℚ) :
    (claimedCallTypeTimeStatus t ty s now).rank
      ≤ (getCallTypeSemaphoreStatus_p2 t ty s now).rank := by
  unfold claimedCallTypeTimeStatus getCallTypeSemaphoreStatus_p2
  cases h : activeOfType t ty with
  | nil => exact le_refl _
  | cons a rest =>
    simp only [List.foldl_cons, ite_self, foldl_pick_min_p2]
    unfold timeWindowRule
    by_cases h1 : (now - (rest.map (fun c => c.createdAt)).foldl min a.createdAt) / 1000
        > s.timeYellow
    · rw [if_pos h1, if_pos (Or.inl h1)]
    · rw [if_neg h1]
      by_cases h2 : s.timeGreen <
            (now - (rest.map (fun c => c.createdAt)).foldl min a.createdAt) / 1000 ∧
          (now - (rest.map (fun c => c.createdAt)).foldl min a.createdAt) / 1000
            ≤ s.timeYellow
      · rw [if_pos h2]
        by_cases hr : (now - (rest.map (fun c => c.createdAt)).foldl min a.createdAt) / 1000
              > s.timeYellow ∨
            (a :: rest).length > s.qtyYellow
        · rw [if_pos hr]
          simp [SemaphoreStatus.rank]
        · rw [if_neg hr, if_pos (Or.inl h2)]
      · rw [if_neg h2]
        split_ifs <;> simp [SemaphoreStatus.rank]

/-- The hooks call-type semaphore can never answer YELLOW: its only outcomes
are IDLE, RED and GREEN. -/
lemma callTypeStatus_hooks_no_yellow (t : Table) (ty : CallType) (s : Settings) (now : ℚ) :
    getCallTypeSemaphoreStatus_hooks t ty s now ≠ .YELLOW := by
  unfold getCallTypeSemaphoreStatus_hooks
  cases h : activeOfType t ty with
  | nil => simp
  | cons a rest =>
    dsimp only
    split_ifs <;> simp

/-- Scenario table for C2: a single active WAITER call created at epoch-millis
0; at `now = 50000` its elapsed time (50s) lies strictly inside the
`(timeGreen, timeYellow] = (30, 90]` window. -/
def scenarioOneCallTable : Table := ⟨"1", [⟨"c1", .WAITER, .SENT, 0⟩]⟩

/-- C2 (amended). With no active call of the type both variants answer IDLE.
The part_002 `getCallTypeSemaphoreStatus` applies the time-and-quantity rule
from the minimum `createdAt`, hence is always at least as urgent as the
claim's time rule.  The hooks variant instead measures from the first listed
active call of the type and knows only RED (past `timeYellow`) and GREEN: it
never answers YELLOW, so the claim's `timeGreen < elapsed ≤ timeYellow →
YELLOW` case fails there. -/
theorem claim_C2 :
    (∀ (t : Table) (ty : CallType) (s : Settings) (now : ℚ),
        getCallTypeSemaphoreStatus_p2 t ty s now = .IDLE ↔ activeOfType t ty = []) ∧
    (∀ (t : Table) (ty : CallType) (s : Settings) (now : ℚ),
        (claimedCallTypeTimeStatus t ty s now).rank
          ≤ (getCallTypeSemaphoreStatus_p2 t ty s now).rank) ∧
    (∀ (t : Table) (ty : CallType) (s : Settings) (now : ℚ),
        getCallTypeSemaphoreStatus_hooks t ty s now = .IDLE ↔ activeOfType t ty = []) ∧
    (∀ (t : Table) (ty : CallType) (s : Settings) (now : ℚ),
        getCallTypeSemaphoreStatus_hooks t ty s now ≠ .YELLOW) :=
  ⟨callTypeStatus_p2_IDLE_iff, callTypeStatus_p2_rank_ge,
    callTypeStatus_hooks_IDLE_iff, callTypeStatus_hooks_no_yellow⟩

/-- C2 counterexample. One active WAITER call 50 seconds old under settings
30/90/2/4: the claim's time rule demands YELLOW, but the hooks
`getCallTypeSemaphoreStatus` answers GREEN (it has no YELLOW branch). -/
theorem claim_C2_cex :
    claimedCallTypeTimeStatus scenarioOneCallTable .WAITER scenarioSettings 50000
        = SemaphoreStatus.YELLOW ∧
    getCallTypeSemaphoreStatus_hooks scenarioOneCallTable .WAITER scenarioSettings 50000
        = SemaphoreStatus.GREEN :=
  ⟨by decide, by decide⟩

/-- `foldl min` is monotone in its initial value. -/
lemma foldl_min_init_le {xs : List ℚ} {i j : ℚ} (h : i ≤ j) :
    xs.foldl min i ≤ xs.foldl min j := by
  induction xs generalizing i j with
  | nil => exact h
  | cons x l ih => exact ih (min_le_min h le_rfl)

/-- Prepending a call can only increase the maximum per-type count. -/
lemma maxTypeCount_cons_le (c : Call) (l : List Call) :
    ((l.map fun x => x.type).dedup.map
      (fun ty => (l.filter fun x => x.type = ty).length)).foldl max 0
    ≤ (((c :: l).map fun x => x.type).dedup.map
      (fun ty => ((c :: l).filter fun x => x.type = ty).length)).foldl max 0 := by
  apply le_of_forall_lt
  intro q hq
  rw [← exists_type_count_gt_iff] at hq ⊢
  rcases hq with ⟨ty, hty, hcnt⟩
  refine ⟨ty, ?_, ?_⟩
  · rw [List.mem_dedup] at hty ⊢
    rw [List.map_cons]
    exact List.mem_cons_of_mem _ hty
  · calc q < (l.filter fun x => x.type = ty).length := hcnt
      _ ≤ ((c :: l).filter fun x => x.type = ty).length := by
        rw [List.filter_cons]
        split
        · exact Nat.le_succ _
        · exact le_rfl

/-- C7: for settings with `timeGreen < timeYellow` and `qtyGreen < qtyYellow`,
both table-status variants are monotonically non-decreasing in the
IDLE < GREEN < YELLOW < RED order, both as the clock advances (elapsed time
since the oldest active call grows) and when one more active call of any type
is added to the table (that type's active count grows). -/
theorem claim_C7 (s : Settings) (_hts : s.timeGreen < s.timeYellow)
    (_hqs : s.qtyGreen < s.qtyYellow) :
    (∀ (t : Table) (now1 now2 : ℚ), now1 ≤ now2 →
      (getTableSemaphoreStatus_p2 t s now1).rank
        ≤ (getTableSemaphoreStatus_p2 t s now2).rank) ∧
    (∀ (t : Table) (now : ℚ) (c : Call), c.status = .SENT ∨ c.status = .VIEWED →
      (getTableSemaphoreStatus_p2 t s now).rank
        ≤ (getTableSemaphoreStatus_p2 ⟨t.number, c :: t.calls⟩ s now).rank) ∧
    (∀ (t : Table) (now1 now2 : ℚ), now1 ≤ now2 →
      (getTableSemaphoreStatus_hooks t s now1).rank
        ≤ (getTableSemaphoreStatus_hooks t s now2).rank) ∧
    (∀ (t : Table) (now : ℚ) (c : Call), c.status = .SENT ∨ c.status = .VIEWED →
      (getTableSemaphoreStatus_hooks t s now).rank
        ≤ (getTableSemaphoreStatus_hooks ⟨t.number, c :: t.calls⟩ s now).rank) := by
  have hdiv : ∀ {x y : ℚ}, x ≤ y → x / 1000 ≤ y / 1000 := fun h =>
    (div_le_div_iff_of_pos_right (by norm_num : (0:ℚ) < 1000)).mpr h
  refine ⟨?_, ?_, ?_, ?_⟩
  · intro t now1 now2 h
    rw [tableStatus_p2_eq_claimed, tableStatus_p2_eq_claimed]
    unfold claimedTableStatus
    cases hl : t.calls.filter
        (fun c => c.status = CallStatus.SENT ∨ c.status = CallStatus.VIEWED) with
    | nil => exact le_rfl
    | cons a rest =>
      exact semaphoreRule_rank_mono s (hdiv (sub_le_sub_right h _)) le_rfl
  · intro t now c hc
    rw [tableStatus_p2_eq_claimed, tableStatus_p2_eq_claimed]
    unfold claimedTableStatus
    have hf : (c :: t.calls).filter
        (fun x => x.status = CallStatus.SENT ∨ x.status = CallStatus.VIEWED)
        = c :: t.calls.filter
          (fun x => x.status = CallStatus.SENT ∨ x.status = CallStatus.VIEWED) :=
      List.filter_cons_of_pos (by simpa using hc)
    show _ ≤ (match (c :: t.calls).filter
        (fun (x : Call) => x.status = CallStatus.SENT ∨ x.status = CallStatus.VIEWED) with
      | [] => SemaphoreStatus.IDLE
      | a :: rest => semaphoreRule s
          ((now - (rest.map (fun (x : Call) => x.createdAt)).foldl min a.createdAt) / 1000)
          ((((a :: rest).map fun (x : Call) => x.type).dedup.map
            (fun ty => ((a :: rest).filter fun (x : Call) => x.type = ty).length)).foldl max 0)).rank
    rw [hf]
    cases hl : t.calls.filter
        (fun x => x.status = CallStatus.SENT ∨ x.status = CallStatus.VIEWED) with
    | nil => exact Nat.zero_le _
    | cons a rest =>
      refine le_trans (semaphoreRule_rank_mono s (hdiv (sub_le_sub_left ?_ now))
        (maxTypeCount_cons_le c (a :: rest))) le_rfl
      rw [List.map_cons, List.foldl_cons]
      exact foldl_min_init_le (min_le_right _ _)
  · intro t now1 now2 h
    rw [tableStatus_hooks_eq_timeOnly, tableStatus_hooks_eq_timeOnly]
    unfold timeOnlyTableStatus
    cases hl : t.calls.filter
        (fun c => c.status = CallStatus.SENT ∨ c.status = CallStatus.VIEWED) with
    | nil => exact le_rfl
    | cons a rest =>
      exact timeWindowRule_rank_mono s (hdiv (sub_le_sub_right h _))
  · intro t now c hc
    rw [tableStatus_hooks_eq_timeOnly, tableStatus_hooks_eq_timeOnly]
    unfold timeOnlyTableStatus
    have hf : (c :: t.calls).filter
        (fun x => x.status = CallStatus.SENT ∨ x.status = CallStatus.VIEWED)
        = c :: t.calls.filter
          (fun x => x.status = CallStatus.SENT ∨ x.status = CallStatus.VIEWED) :=
      List.filter_cons_of_pos (by simpa using hc)
    show _ ≤ (match (c :: t.calls).filter
        (fun (x : Call) => x.status = CallStatus.SENT ∨ x.status = CallStatus.VIEWED) with
      | [] => SemaphoreStatus.IDLE
      | a :: rest => timeWindowRule s
          ((now - (rest.map (fun (x : Call) => x.createdAt)).foldl min a.createdAt) / 1000)).rank
    rw [hf]
    cases hl : t.calls.filter
        (fun x => x.status = CallStatus.SENT ∨ x.status = CallStatus.VIEWED) with
    | nil => exact Nat.zero_le _
    | cons a rest =>
      refine timeWindowRule_rank_mono s (hdiv (sub_le_sub_left ?_ now))
      rw [List.map_cons, List.foldl_cons]
      exact foldl_min_init_le (min_le_right _ _)

/-- Witness for C7: the scenario settings satisfy both threshold hypotheses,
and the time-monotonicity conclusion holds on a concrete table between
`now = 1000` and `now = 2000`. -/
theorem claim_C7_wit :
    scenarioSettings.timeGreen < scenarioSettings.timeYellow ∧
    scenarioSettings.qtyGreen < scenarioSettings.qtyYellow ∧
    (getTableSemaphoreStatus_p2 scenarioOneCallTable scenarioSettings 1000).rank
      ≤ (getTableSemaphoreStatus_p2 scenarioOneCallTable scenarioSettings 2000).rank :=
  ⟨by decide, by decide,
    (claim_C7 scenarioSettings (by decide) (by decide)).1 scenarioOneCallTable
      1000 2000 (by decide)⟩

/-! ## FavoritesGuard: `favoriteEstablishment` -/

/-- The remote `customer_favorites` rows visible to a user: pairs
`(user_id, establishment_id)`, with the table's unique-pair constraint. -/
def favoritesOf (db : List (String × String)) (userId : String) :
    List (String × String) :=
  db.filter fun p => p.1 = userId

/-- Result of the part_002 `favoriteEstablishment`: either the new table state
or one of its two `throw` paths. -/
inductive FavResult where
  | ok (db : List (String × String))
  | limitError
  | insertError
deriving DecidableEq, Repr

/-- `favoriteEstablishment` of `src/unnamed/part_002` (lines 452-466): count
the user's favorite rows and throw the limit error at ≥ 3; then insert — a
unique-pair violation (Postgres code 23505) is swallowed (state unchanged),
any other insert error is rethrown (never happens in this model). -/
def favoriteEstablishment_p2 (db : List (String × String))
    (userId establishmentId : String) : FavResult :=
  if (favoritesOf db userId).length ≥ 3 then .limitError
  else if (userId, establishmentId) ∈ db then .ok db
  else .ok (db ++ [(userId, establishmentId)])

/-- `favoriteEstablishment` of `src/hooks/useMockData.ts` (lines 416-419): a
bare insert with no limit check; the insert result is not inspected, so a
duplicate-pair rejection by the store leaves the table unchanged and raises
nothing. -/
def favoriteEstablishment_hooks (db : List (String × String))
    (userId establishmentId : String) : List (String × String) :=
  if (userId, establishmentId) ∈ db then db
  else db ++ [(userId, establishmentId)]

/-- C3 (amended). In the part_002 variant `favoriteEstablishment` fails with
the limit error whenever the user already holds ≥ 3 favorites — including a
re-add of an establishment already favorited, which is a benign no-op only
while the count is below 3 — and succeeds (appending the pair) for a new
establishment while below 3, so a user's count never exceeds 3 there.  The
hooks variant performs no limit check at all: re-adding is a no-op, but a 4th
distinct establishment is inserted without error. -/
theorem claim_C3 (db : List (String × String)) (userId establishmentId : String) :
    ((favoritesOf db userId).length ≥ 3 →
      favoriteEstablishment_p2 db userId establishmentId = .limitError) ∧
    ((favoritesOf db userId).length < 3 → (userId, establishmentId) ∉ db →
      favoriteEstablishment_p2 db userId establishmentId
        = .ok (db ++ [(userId, establishmentId)]) ∧
      (favoritesOf (db ++ [(userId, establishmentId)]) userId).length
        = (favoritesOf db userId).length + 1) ∧
    ((favoritesOf db userId).length < 3 → (userId, establishmentId) ∈ db →
      favoriteEstablishment_p2 db userId establishmentId = .ok db) ∧
    (∀ db2, favoriteEstablishment_p2 db userId establishmentId = .ok db2 →
      (favoritesOf db userId).length ≤ 3 → (favoritesOf db2 userId).length ≤ 3) ∧
    ((userId, establishmentId) ∈ db →
      favoriteEstablishment_hooks db userId establishmentId = db) ∧
    ((userId, establishmentId) ∉ db →
      favoriteEstablishment_hooks db userId establishmentId
        = db ++ [(userId, establishmentId)]) := by
  unfold favoriteEstablishment_p2 favoriteEstablishment_hooks
  refine ⟨fun h => if_pos h, fun hlt hnot => ⟨?_, ?_⟩, fun hlt hmem => ?_,
    fun db2 hok hle => ?_, fun hmem => if_pos hmem, fun hnot => if_neg hnot⟩
  · rw [if_neg (not_le.mpr hlt), if_neg hnot]
  · unfold favoritesOf
    rw [List.filter_append]
    simp
  · rw [if_neg (not_le.mpr hlt), if_pos hmem]
  · by_cases h3 : (favoritesOf db userId).length ≥ 3
    · rw [if_pos h3] at hok
      exact absurd hok (by simp)
    · rw [if_neg h3] at hok
      by_cases hmem : (userId, establishmentId) ∈ db
      · rw [if_pos hmem] at hok
        cases hok
        exact hle
      · rw [if_neg hmem] at hok
        cases hok
        have h3lt := not_le.mp h3
        unfold favoritesOf at h3lt ⊢
        rw [List.filter_append]
        simp only [List.length_append]
        have hone : (List.filter (fun p => decide (p.1 = userId))
            [(userId, establishmentId)]).length ≤ 1 := by simp
        omega

/-- Witness for C3: with two existing favorites, adding a third distinct
establishment succeeds and brings the user's count to 3. -/
theorem claim_C3_wit :
    ((favoritesOf [("u", "e1"), ("u", "e2")] "u").length < 3 ∧
      ("u", "e3") ∉ [("u", "e1"), ("u", "e2")]) ∧
    favoriteEstablishment_p2 [("u", "e1"), ("u", "e2")] "u" "e3"
        = .ok [("u", "e1"), ("u", "e2"), ("u", "e3")] ∧
    (favoritesOf [("u", "e1"), ("u", "e2"), ("u", "e3")] "u").length
        = (favoritesOf [("u", "e1"), ("u", "e2")] "u").length + 1 :=
  ⟨⟨by decide, by decide⟩, by
    have h := (claim_C3 [("u", "e1"), ("u", "e2")] "u" "e3").2.1
      (by decide) (by decide)
    exact h⟩

/-- C3 counterexample.  A user with three favorites: re-adding the already
favorited `e1` under the part_002 variant throws the limit error — not the
benign no-op the claim promises for duplicates — and under the hooks variant a
4th distinct establishment `e4` is accepted outright, giving the user four
favorites where the claim says the 4th is rejected before insertion. -/
theorem claim_C3_cex :
    favoriteEstablishment_p2 [("u", "e1"), ("u", "e2"), ("u", "e3")] "u" "e1"
        = FavResult.limitError ∧
    favoriteEstablishment_hooks [("u", "e1"), ("u", "e2"), ("u", "e3")] "u" "e4"
        = [("u", "e1"), ("u", "e2"), ("u", "e3"), ("u", "e4")] ∧
    (favoritesOf [("u", "e1"), ("u", "e2"), ("u", "e3"), ("u", "e4")] "u").length
        = 4 :=
  ⟨by decide, by decide, by decide⟩

/-! ## Data model for the sync engine and remote store -/

/-- User roles (`Role` of the missing `src/types`): the hooks test
`ESTABLISHMENT` and `CUSTOMER`; an admin role also exists. -/
inductive Role where
  | ESTABLISHMENT
  | CUSTOMER
  | ADMIN
deriving DecidableEq, Repr

/-- A session user (`User` of the missing `src/types`), restricted to the
fields the sync engine reads. -/
structure User where
  id : String
  email : String
  role : Role
  name : String
  establishmentId : Option String
deriving DecidableEq, Repr

/-- A remote `calls` row (`interface DBCall` of both hook variants). -/
structure DBCall where
  id : String
  establishment_id : String
  table_number : String
  type : CallType
  status : CallStatus
  created_at_ts : ℚ
deriving DecidableEq, Repr

/-- A remote `establishments` row, restricted to the columns the loaders
select (hooks line 181); `settings` is a nullable JSON column. -/
structure EstRow where
  id : String
  owner_id : String
  name : String
  phone : String
  photo_url : String
  phrase : String
  is_open : Bool
  settings : Option Settings
deriving DecidableEq, Repr

/-- The in-memory aggregate (`Establishment` of the missing `src/types`):
`tables` is an insertion-ordered key-value list mirroring a JS `Map`. -/
structure Establishment where
  id : String
  ownerId : String
  name : String
  phone : String
  photoUrl : String
  phrase : String
  settings : Settings
  tables : List (String × Table)
  eventLog : List String
  isOpen : Bool
deriving DecidableEq, Repr

/-- JS `Map.get`: the value stored under `k`, if any. -/
def mapGet {α : Type} (m : List (String × α)) (k : String) : Option α :=
  match m.find? (fun p => p.1 = k) with
  | some p => some p.2
  | none => none

/-- JS `Map.has`. -/
def mapHas {α : Type} (m : List (String × α)) (k : String) : Bool :=
  (mapGet m k).isSome

/-- JS `Map.set`: update in place if the key exists, else append. -/
def mapSet {α : Type} (m : List (String × α)) (k : String) (v : α) :
    List (String × α) :=
  if (m.find? (fun p => p.1 = k)).isSome then
    m.map fun p => if p.1 = k then (k, v) else p
  else m ++ [(k, v)]

/-- JS `Map.keys` (insertion order). -/
def mapKeys {α : Type} (m : List (String × α)) : List String :=
  m.map fun p => p.1

/-- The body of the calls-to-tables `forEach` of `loadEstablishmentData`
(hooks lines 219-223, part_002 lines 153-162): fetch-or-create the entry for
the row's `table_number`, push the call, store the entry back. -/
def buildStep (m : List (String × Table)) (c : DBCall) : List (String × Table) :=
  let existing := (mapGet m c.table_number).getD ⟨c.table_number, []⟩
  mapSet m c.table_number
    ⟨existing.number, existing.calls ++ [⟨c.id, c.type, c.status, c.created_at_ts⟩]⟩

/-- The calls-to-tables fold of `loadEstablishmentData` (hooks lines 216-224,
part_002 lines 149-163): group call rows by `table_number` in row order,
starting from the empty map. -/
def buildCallsMap (calls : List DBCall) : List (String × Table) :=
  calls.foldl buildStep []

/-- The `for (let i = 1; i <= totalTables; i++)` fill loop of both loaders
(hooks lines 226-230, part_002 lines 166-174, whose padded `numStr` is
computed but unused): add an empty table for each missing number. -/
def addDefaultTables (m : List (String × Table)) (totalTables : ℕ) :
    List (String × Table) :=
  (List.range totalTables).foldl
    (fun m i =>
      let num := toString (i + 1)
      if mapHas m num then m else mapSet m num ⟨num, []⟩)
    m

/-- `est.settings?.totalTables || DEFAULT_SETTINGS.totalTables` — JS `||`
also falls back when the stored count is 0 (falsy). -/
def effectiveTotalTables (settings : Option Settings) (defaults : Settings) : ℕ :=
  match settings with
  | none => defaults.totalTables
  | some s => if s.totalTables = 0 then defaults.totalTables else s.totalTables

/-- Outcome of the establishment-row fetch inside the hooks
`loadEstablishmentData`: row data, a reported error / missing row (the
`estError || !est` branch), or a rejection of the `withTimeout` race, which
the surrounding `try`/`catch` turns into a `null` return. -/
inductive FetchEst where
  | ok (est : EstRow)
  | errOrMissing
  | timeout
deriving DecidableEq, Repr

/-- `withTimeout` (hooks lines 38-43): race a fetch of known latency against
an `ms`-millisecond rejection timer (default 8000); the fetch wins only
within the bound. -/
def withTimeout (latency : ℚ) (ms : ℚ) (result : FetchEst) : FetchEst :=
  if latency ≤ ms then result else .timeout

/-- The "Virtual" fallback establishment of the hooks loader (lines 195-206):
identity from the session (`name ||` fires on an empty name), default
settings, an EMPTY `tables` map (`new Map()`), recovery-mode phrase, and
`isOpen = true`. -/
def fallbackEst (defaults : Settings) (u : User) (estId : String) : Establishment :=
  { id := estId
    ownerId := u.id
    name := if u.name = "" then "Meu Restaurante (Offline)" else u.name
    phone := "000000000"
    photoUrl := ""
    phrase := "Modo de Recuperação"
    settings := defaults
    tables := []
    eventLog := []
    isOpen := true }

/-- The active-calls query of the hooks loader (line 214): the rows of the
establishment whose status is in (SENT, VIEWED). -/
def fetchActiveCallRows (remote : List DBCall) (estId : String) : List DBCall :=
  remote.filter fun c => c.establishment_id = estId ∧
    (c.status = .SENT ∨ c.status = .VIEWED)

/-- The calls query of the part_002 loader (line 146): every stored row of the
establishment, any status. -/
def fetchAllCallRows (remote : List DBCall) (estId : String) : List DBCall :=
  remote.filter fun c => c.establishment_id = estId

/-- `loadEstablishmentData` of `src/hooks/useMockData.ts` (lines 175-244) as a
state transformer over the establishment cache.  `defaults` stands for
`DEFAULT_SETTINGS` (imported from the absent `src/constants`); `fetchResult`
is the resolved establishment query and `callsRows` the (nullable) result of
the calls query.  A `withTimeout` rejection unwinds to the outer catch (line
240), which returns null without touching the cache; an error or missing row
serves the cached aggregate if present, else synthesizes `fallbackEst` for
the establishment's own owner. -/
def loadEstablishmentData (defaults : Settings)
    (cache : List (String × Establishment)) (currentUser : Option User)
    (estId : String) (fetchResult : FetchEst) (callsRows : Option (List DBCall)) :
    List (String × Establishment) × Option Establishment :=
  match fetchResult with
  | .timeout => (cache, none)
  | .errOrMissing =>
    if mapHas cache estId then (cache, mapGet cache estId)
    else
      match currentUser with
      | some u =>
        if u.role = .ESTABLISHMENT ∧ u.establishmentId = some estId then
          (mapSet cache estId (fallbackEst defaults u estId),
            some (fallbackEst defaults u estId))
        else (cache, none)
      | none => (cache, none)
  | .ok est =>
    let tablesMap := buildCallsMap (callsRows.getD [])
    let tablesMap2 := addDefaultTables tablesMap
      (effectiveTotalTables est.settings defaults)
    let fullEst : Establishment :=
      { id := est.id
        ownerId := est.owner_id
        name := est.name
        phone := est.phone
        photoUrl := est.photo_url
        phrase := est.phrase
        settings := est.settings.getD defaults
        tables := tablesMap2
        eventLog := []
        isOpen := est.is_open }
    (mapSet cache estId fullEst, some fullEst)

/-- The table map the part_002 loader builds (lines 146-174): group every
stored call row of the establishment, then fill table numbers 1..totalTables. -/
def tablesMap_p2 (remote : List DBCall) (estId : String) (totalTables : ℕ) :
    List (String × Table) :=
  addDefaultTables (buildCallsMap (fetchAllCallRows remote estId)) totalTables

/-- A polling cycle's cache effect across a run of failing refreshes (claim
C4's "any number of consecutive failures"): fold `loadEstablishmentData` over
the fetch outcomes. -/
def runFailures (defaults : Settings) (user : Option User) (estId : String)
    (cache : List (String × Establishment)) (frs : List FetchEst) :
    List (String × Establishment) :=
  frs.foldl (fun c fr => (loadEstablishmentData defaults c user estId fr none).1) cache

/-- C4: when the cache already holds an aggregate for the id, a refresh whose
establishment fetch fails — reported error / missing row, or a `withTimeout`
rejection — leaves the cache exactly as it was (serve-stale, no placeholder),
the error path even returning the cached aggregate; this persists over any
run of consecutive failing cycles; and a fetch slower than the 8000 ms bound
is indeed turned into a timeout by `withTimeout`. -/
theorem claim_C4 (defaults : Settings) (cache : List (String × Establishment))
    (user : Option User) (estId : String)
    (hcached : mapHas cache estId = true) :
    (∀ callsRows : Option (List DBCall),
      (loadEstablishmentData defaults cache user estId .errOrMissing callsRows).1
          = cache ∧
      (loadEstablishmentData defaults cache user estId .errOrMissing callsRows).2
          = mapGet cache estId ∧
      (loadEstablishmentData defaults cache user estId .timeout callsRows).1 = cache ∧
      (loadEstablishmentData defaults cache user estId .timeout callsRows).2 = none) ∧
    (∀ frs : List FetchEst, (∀ fr ∈ frs, fr = .errOrMissing ∨ fr = .timeout) →
      runFailures defaults user estId cache frs = cache) ∧
    (∀ (latency : ℚ) (r : FetchEst), ¬ latency ≤ 8000 →
      withTimeout latency 8000 r = FetchEst.timeout) := by
  refine ⟨?_, ?_, ?_⟩
  · intro callsRows
    unfold loadEstablishmentData
    rw [if_pos hcached]
    exact ⟨rfl, rfl, rfl, rfl⟩
  · intro frs
    induction frs with
    | nil => intro _; rfl
    | cons fr rest ih =>
      intro hall
      have hstep : (loadEstablishmentData defaults cache user estId fr none).1
          = cache := by
        rcases hall fr (List.mem_cons_self _ _) with rfl | rfl
        · unfold loadEstablishmentData
          rw [if_pos hcached]
        · rfl
      unfold runFailures
      rw [List.foldl_cons, hstep]
      exact ih fun f hf => hall f (List.mem_cons_of_mem _ hf)
  · intro latency r h
    unfold withTimeout
    rw [if_neg h]

/-- A cached aggregate used by the C4 witness. -/
def witnessEst : Establishment :=
  ⟨"X", "own", "Resto", "123", "", "", scenarioSettings, [], [], true⟩

/-- The one-entry cache used by the C4 witness. -/
def witnessCache : List (String × Establishment) := [("X", witnessEst)]

/-- Witness for C4: with establishment X cached, two consecutive timeouts (the
spec's scenario) leave the cache untouched, and a 9-second fetch times out. -/
theorem claim_C4_wit :
    mapHas witnessCache "X" = true ∧
    runFailures scenarioSettings none "X" witnessCache [.timeout, .timeout]
        = witnessCache ∧
    withTimeout 9000 8000 .errOrMissing = FetchEst.timeout :=
  ⟨by decide,
    (claim_C4 scenarioSettings witnessCache none "X" (by decide)).2.1
      [.timeout, .timeout] (by decide),
    (claim_C4 scenarioSettings witnessCache none "X" (by decide)).2.2
      9000 .errOrMissing (by decide)⟩

/-- C5 (amended). With no cached aggregate and a REPORTED fetch failure
(error or missing row — not a timeout, which unwinds to the catch and returns
null with no placeholder), for the establishment's own owner the hooks loader
stores and returns `fallbackEst`: identity from the session, `isOpen = true`,
default settings, recovery-mode name/phrase as its only degraded marking, and
an EMPTY table map — zero entries, not a map sized to the default capacity. -/
theorem claim_C5 (defaults : Settings) (cache : List (String × Establishment))
    (u : User) (estId : String) (callsRows : Option (List DBCall))
    (hnc : mapHas cache estId = false)
    (hrole : u.role = Role.ESTABLISHMENT)
    (hid : u.establishmentId = some estId) :
    loadEstablishmentData defaults cache (some u) estId .errOrMissing callsRows
      = (mapSet cache estId (fallbackEst defaults u estId),
          some (fallbackEst defaults u estId)) ∧
    (fallbackEst defaults u estId).tables = [] ∧
    (fallbackEst defaults u estId).isOpen = true ∧
    (fallbackEst defaults u estId).id = estId ∧
    (fallbackEst defaults u estId).ownerId = u.id ∧
    (fallbackEst defaults u estId).settings = defaults ∧
    (fallbackEst defaults u estId).phrase = "Modo de Recuperação" ∧
    loadEstablishmentData defaults cache (some u) estId .timeout callsRows
      = (cache, none) := by
  refine ⟨?_, rfl, rfl, rfl, rfl, rfl, rfl, rfl⟩
  unfold loadEstablishmentData
  simp only [hnc, Bool.false_eq_true, if_false]
  rw [if_pos ⟨hrole, hid⟩]

/-- The owner session used by the C5 witness and counterexample. -/
def ownerC5 : User := ⟨"u1", "owner@x", .ESTABLISHMENT, "Resto", some "E"⟩

/-- Witness for C5: an owner with an empty cache and a reported fetch failure
receives the open fallback aggregate. -/
theorem claim_C5_wit :
    (mapHas ([] : List (String × Establishment)) "E" = false ∧
      ownerC5.role = Role.ESTABLISHMENT ∧ ownerC5.establishmentId = some "E") ∧
    loadEstablishmentData scenarioSettings [] (some ownerC5) "E" .errOrMissing none
      = (mapSet [] "E" (fallbackEst scenarioSettings ownerC5 "E"),
          some (fallbackEst scenarioSettings ownerC5 "E")) ∧
    (fallbackEst scenarioSettings ownerC5 "E").isOpen = true :=
  ⟨⟨by decide, by decide, by decide⟩,
    (claim_C5 scenarioSettings [] ownerC5 "E" none (by decide) (by decide)
      (by decide)).1,
    (claim_C5 scenarioSettings [] ownerC5 "E" none (by decide) (by decide)
      (by decide)).2.2.1⟩

/-- C5 counterexample.  Owner session, empty cache, default capacity 10: the
placeholder the hooks loader produces on a reported failure has a table map
with ZERO entries — not "empty-but-sized to the default settings capacity" —
and on a timeout no placeholder is produced at all (the loader returns null
and stores nothing). -/
theorem claim_C5_cex :
    ((loadEstablishmentData scenarioSettings [] (some ownerC5) "E"
        .errOrMissing none).2.map fun e => e.tables.length) = some 0 ∧
    scenarioSettings.totalTables = 10 ∧
    loadEstablishmentData scenarioSettings [] (some ownerC5) "E" .timeout none
      = ([], none) :=
  ⟨by decide, rfl, by decide⟩

/-! ## Key-set lemmas for the JS-Map embedding -/

/-- The key list after `mapSet`: unchanged when the key was present, extended
by the key otherwise. -/
lemma mapKeys_mapSet {α : Type} (m : List (String × α)) (k : String) (v : α) :
    mapKeys (mapSet m k v)
      = if (m.find? fun p => p.1 = k).isSome then mapKeys m else mapKeys m ++ [k] := by
  unfold mapSet
  by_cases h : (m.find? fun p => p.1 = k).isSome
  · rw [if_pos h, if_pos h]
    unfold mapKeys
    rw [List.map_map]
    apply List.map_congr_left
    intro p _
    by_cases hp : p.1 = k
    · simp [hp]
    · simp [hp]
  · rw [if_neg h, if_neg h]
    unfold mapKeys
    rw [List.map_append]
    simp

/-- A key found by `find?` is in the key list. -/
lemma found_mem_mapKeys {α : Type} {m : List (String × α)} {k : String}
    (h : (m.find? fun p => p.1 = k).isSome) : k ∈ mapKeys m := by
  rw [List.find?_isSome] at h
  rcases h with ⟨p, hp, hpk⟩
  simp only [decide_eq_true_eq] at hpk
  exact hpk ▸ List.mem_map_of_mem _ hp

/-- A key in the key list is found by `find?`. -/
lemma mem_mapKeys_found {α : Type} {m : List (String × α)} {k : String}
    (h : k ∈ mapKeys m) : (m.find? fun p => p.1 = k).isSome := by
  rw [List.find?_isSome]
  rcases List.mem_map.mp h with ⟨p, hp, rfl⟩
  exact ⟨p, hp, by simp⟩

/-- `mapHas` answers key-list membership. -/
lemma mapHas_iff {α : Type} (m : List (String × α)) (k : String) :
    mapHas m k = true ↔ k ∈ mapKeys m := by
  unfold mapHas mapGet
  constructor
  · intro h
    apply found_mem_mapKeys (m := m) (k := k)
    cases hf : m.find? fun p => p.1 = k with
    | none => rw [hf] at h; simp at h
    | some p => simp [hf]
  · intro h
    have := mem_mapKeys_found h
    cases hf : m.find? fun p => p.1 = k with
    | none => rw [hf] at this; simp at this
    | some p => rfl

/-- Membership in the key list after `mapSet`. -/
lemma mem_mapKeys_mapSet {α : Type} (m : List (String × α)) (k k' : String) (v : α) :
    k' ∈ mapKeys (mapSet m k v) ↔ k' ∈ mapKeys m ∨ k' = k := by
  rw [mapKeys_mapSet]
  by_cases h : (m.find? fun p => p.1 = k).isSome
  · rw [if_pos h]
    constructor
    · exact Or.inl
    · rintro (h' | rfl)
      · exact h'
      · exact found_mem_mapKeys h
  · rw [if_neg h]
    simp [List.mem_append]

/-- `mapSet` keeps the key list duplicate-free. -/
lemma nodup_mapKeys_mapSet {α : Type} (m : List (String × α)) (k : String) (v : α)
    (h : (mapKeys m).Nodup) : (mapKeys (mapSet m k v)).Nodup := by
  rw [mapKeys_mapSet]
  by_cases hf : (m.find? fun p => p.1 = k).isSome
  · rwa [if_pos hf]
  · rw [if_neg hf]
    rw [List.nodup_append]
    refine ⟨h, List.nodup_singleton _, ?_⟩
    intro a ha hk
    rw [List.mem_singleton] at hk
    subst hk
    exact hf (mem_mapKeys_found ha)

/-- Key membership across the calls-grouping fold, for any starting map. -/
lemma mem_keys_foldl_buildStep (calls : List DBCall) :
    ∀ (m : List (String × Table)) (k : String),
      k ∈ mapKeys (calls.foldl buildStep m)
        ↔ k ∈ mapKeys m ∨ ∃ c ∈ calls, c.table_number = k := by
  induction calls with
  | nil => simp
  | cons c cs ih =>
    intro m k
    rw [List.foldl_cons, ih]
    have hstep : ∀ k', k' ∈ mapKeys (buildStep m c)
        ↔ k' ∈ mapKeys m ∨ k' = c.table_number := by
      intro k'
      unfold buildStep
      exact mem_mapKeys_mapSet m c.table_number k' _
    rw [hstep k]
    constructor
    · rintro ((h | rfl) | ⟨x, hx, hk⟩)
      · exact Or.inl h
      · exact Or.inr ⟨c, List.mem_cons_self _ _, rfl⟩
      · exact Or.inr ⟨x, List.mem_cons_of_mem _ hx, hk⟩
    · rintro (h | ⟨x, hx, hk⟩)
      · exact Or.inl (Or.inl h)
      · rcases List.mem_cons.mp hx with rfl | hx2
        · exact Or.inl (Or.inr hk.symm)
        · exact Or.inr ⟨x, hx2, hk⟩

/-- Key membership in `buildCallsMap`: exactly the table numbers of the rows. -/
lemma mem_keys_buildCallsMap (calls : List DBCall) (k : String) :
    k ∈ mapKeys (buildCallsMap calls) ↔ ∃ c ∈ calls, c.table_number = k := by
  unfold buildCallsMap
  rw [mem_keys_foldl_buildStep]
  simp [mapKeys]

/-- The calls-grouping fold keeps the key list duplicate-free. -/
lemma nodup_keys_foldl_buildStep (calls : List DBCall) :
    ∀ m : List (String × Table), (mapKeys m).Nodup
      → (mapKeys (calls.foldl buildStep m)).Nodup := by
  induction calls with
  | nil => intro m h; exact h
  | cons c cs ih =>
    intro m h
    rw [List.foldl_cons]
    exact ih _ (nodup_mapKeys_mapSet _ _ _ h)

/-- Key membership after the 1..totalTables fill loop. -/
lemma mem_keys_addDefaultTables (m : List (String × Table)) (n : ℕ) (k : String) :
    k ∈ mapKeys (addDefaultTables m n)
      ↔ k ∈ mapKeys m ∨ ∃ i, i < n ∧ k = toString (i + 1) := by
  induction n generalizing k with
  | zero => simp [addDefaultTables]
  | succ n ih =>
    unfold addDefaultTables at ih ⊢
    dsimp only at ih
    rw [List.range_succ, List.foldl_append, List.foldl_cons, List.foldl_nil]
    dsimp only
    by_cases h : mapHas ((List.range n).foldl
        (fun m i =>
          if mapHas m (toString (i + 1)) then m
          else mapSet m (toString (i + 1)) ⟨toString (i + 1), []⟩) m)
        (toString (n + 1)) = true
    · rw [if_pos h, ih]
      have hmem := (mapHas_iff _ _).mp h
      rw [ih] at hmem
      constructor
      · rintro (h' | ⟨i, hi, rfl⟩)
        · exact Or.inl h'
        · exact Or.inr ⟨i, Nat.lt_succ_of_lt hi, rfl⟩
      · rintro (h' | ⟨i, hi, rfl⟩)
        · exact Or.inl h'
        · rcases Nat.lt_succ_iff_lt_or_eq.mp hi with hi2 | rfl
          · exact Or.inr ⟨i, hi2, rfl⟩
          · exact hmem
    · rw [if_neg h, mem_mapKeys_mapSet, ih]
      constructor
      · rintro ((h' | ⟨i, hi, rfl⟩) | rfl)
        · exact Or.inl h'
        · exact Or.inr ⟨i, Nat.lt_succ_of_lt hi, rfl⟩
        · exact Or.inr ⟨n, Nat.lt_succ_self _, rfl⟩
      · rintro (h' | ⟨i, hi, rfl⟩)
        · exact Or.inl (Or.inl h')
        · rcases Nat.lt_succ_iff_lt_or_eq.mp hi with hi2 | rfl
          · exact Or.inl (Or.inr ⟨i, hi2, rfl⟩)
          · exact Or.inr rfl

/-- The fill loop keeps the key list duplicate-free. -/
lemma nodup_keys_addDefaultTables (m : List (String × Table)) (n : ℕ)
    (h : (mapKeys m).Nodup) : (mapKeys (addDefaultTables m n)).Nodup := by
  induction n with
  | zero => exact h
  | succ n ih =>
    unfold addDefaultTables at ih ⊢
    dsimp only at ih
    rw [List.range_succ, List.foldl_append, List.foldl_cons, List.foldl_nil]
    dsimp only
    split_ifs with hf
    · exact ih
    · exact nodup_mapKeys_mapSet _ _ _ ih

/-- Membership in the hooks loader's calls query result. -/
lemma mem_fetchActiveCallRows_iff (remote : List DBCall) (estId k : String) :
    (∃ c ∈ fetchActiveCallRows remote estId, c.table_number = k)
      ↔ ∃ c ∈ remote, c.establishment_id = estId ∧
          (c.status = CallStatus.SENT ∨ c.status = CallStatus.VIEWED) ∧
          c.table_number = k := by
  unfold fetchActiveCallRows
  constructor
  · rintro ⟨c, hc, hk⟩
    rcases List.mem_filter.mp hc with ⟨hcr, hcp⟩
    simp only [decide_eq_true_eq] at hcp
    exact ⟨c, hcr, hcp.1, hcp.2, hk⟩
  · rintro ⟨c, hc, h1, h2, h3⟩
    exact ⟨c, List.mem_filter.mpr ⟨hc, by simp [h1, h2]⟩, h3⟩

/-- Membership in the part_002 loader's calls query result. -/
lemma mem_fetchAllCallRows_iff (remote : List DBCall) (estId k : String) :
    (∃ c ∈ fetchAllCallRows remote estId, c.table_number = k)
      ↔ ∃ c ∈ remote, c.establishment_id = estId ∧ c.table_number = k := by
  unfold fetchAllCallRows
  constructor
  · rintro ⟨c, hc, hk⟩
    rcases List.mem_filter.mp hc with ⟨hcr, hcp⟩
    simp only [decide_eq_true_eq] at hcp
    exact ⟨c, hcr, hcp, hk⟩
  · rintro ⟨c, hc, h1, h3⟩
    exact ⟨c, List.mem_filter.mpr ⟨hc, by simp [h1]⟩, h3⟩

/-- The empty map has duplicate-free keys. -/
lemma nodup_keys_buildCallsMap (calls : List DBCall) :
    (mapKeys (buildCallsMap calls)).Nodup := by
  unfold buildCallsMap
  exact nodup_keys_foldl_buildStep _ [] (by simp [mapKeys])

/-- C9 (amended).  After a successful hooks refresh the stored aggregate's
table map has duplicate-free keys and contains exactly: one entry per table
number `1..totalTables` (the effective count, with the `||` default), plus
one entry per table number that currently has an ACTIVE (SENT/VIEWED) call —
not per table that ever received a call, because the hooks loader's query
filters by status.  The part_002 loader's table map instead covers every
stored call row of the establishment regardless of status. -/
theorem claim_C9 (defaults : Settings) (cache : List (String × Establishment))
    (user : Option User) (estId : String) (est : EstRow) (remote : List DBCall)
    (tt : ℕ) (k : String) :
    (∃ e, (loadEstablishmentData defaults cache user estId (.ok est)
        (some (fetchActiveCallRows remote estId))).2 = some e ∧
      (loadEstablishmentData defaults cache user estId (.ok est)
        (some (fetchActiveCallRows remote estId))).1 = mapSet cache estId e ∧
      (mapKeys e.tables).Nodup ∧
      (k ∈ mapKeys e.tables ↔
        (∃ i, i < effectiveTotalTables est.settings defaults ∧ k = toString (i + 1)) ∨
        ∃ c ∈ remote, c.establishment_id = estId ∧
          (c.status = CallStatus.SENT ∨ c.status = CallStatus.VIEWED) ∧
          c.table_number = k)) ∧
    ((mapKeys (tablesMap_p2 remote estId tt)).Nodup ∧
      (k ∈ mapKeys (tablesMap_p2 remote estId tt) ↔
        (∃ i, i < tt ∧ k = toString (i + 1)) ∨
        ∃ c ∈ remote, c.establishment_id = estId ∧ c.table_number = k)) := by
  constructor
  · refine ⟨_, rfl, rfl, ?_, ?_⟩
    · exact nodup_keys_addDefaultTables _ _ (nodup_keys_buildCallsMap _)
    · show k ∈ mapKeys (addDefaultTables
        (buildCallsMap ((some (fetchActiveCallRows remote estId)).getD []))
        (effectiveTotalTables est.settings defaults)) ↔ _
      rw [mem_keys_addDefaultTables, mem_keys_buildCallsMap]
      simp only [Option.getD_some]
      constructor
      · rintro (hc | hi)
        · exact Or.inr ((mem_fetchActiveCallRows_iff remote estId k).mp hc)
        · exact Or.inl hi
      · rintro (hi | hc)
        · exact Or.inr hi
        · exact Or.inl ((mem_fetchActiveCallRows_iff remote estId k).mpr hc)
  · refine ⟨?_, ?_⟩
    · exact nodup_keys_addDefaultTables _ _ (nodup_keys_buildCallsMap _)
    · unfold tablesMap_p2
      rw [mem_keys_addDefaultTables, mem_keys_buildCallsMap]
      constructor
      · rintro (hc | hi)
        · exact Or.inr ((mem_fetchAllCallRows_iff remote estId k).mp hc)
        · exact Or.inl hi
      · rintro (hi | hc)
        · exact Or.inr hi
        · exact Or.inl ((mem_fetchAllCallRows_iff remote estId k).mpr hc)

/-- The remote calls table used by the C9 counterexample: one call on table
"5", already ATTENDED. -/
def remoteC9 : List DBCall := [⟨"r1", "e", "5", .WAITER, .ATTENDED, 0⟩]

/-- The establishment row used by the C9 counterexample: two declared tables. -/
def estRowC9 : EstRow := ⟨"e", "own", "Resto", "1", "", "", true, some ⟨2, 30, 90, 2, 4⟩⟩

/-- C9 counterexample.  Table "5" has received a call (now ATTENDED, terminal)
and lies beyond the configured count of 2; after a successful hooks refresh
the table map's keys are exactly ["1", "2"] — no entry for "5", contradicting
"one entry for every table number that has ever received a call".  The
part_002 loader does keep the entry. -/
theorem claim_C9_cex :
    ((loadEstablishmentData scenarioSettings [] none "e" (.ok estRowC9)
        (some (fetchActiveCallRows remoteC9 "e"))).2.map fun e => mapKeys e.tables)
      = some ["1", "2"] ∧
    (∃ c ∈ remoteC9, c.table_number = "5") ∧
    ("5" ∉ (["1", "2"] : List String)) ∧
    mapKeys (tablesMap_p2 remoteC9 "e" 2) = ["5", "1", "2"] :=
  ⟨by decide, by decide, by decide, by decide⟩

/-! ## CallLifecycleController: attend / cancel oldest -/

/-- The filter chain of the attend/cancel query (hooks lines 389 and 397,
part_002 lines 371-378): same establishment, same table, same type, status in
(SENT, VIEWED). -/
def activeCallMatch (estId tblNum : String) (ty : CallType) (c : DBCall) : Prop :=
  c.establishment_id = estId ∧ c.table_number = tblNum ∧ c.type = ty ∧
    (c.status = .SENT ∨ c.status = .VIEWED)

instance (estId tblNum : String) (ty : CallType) (c : DBCall) :
    Decidable (activeCallMatch estId tblNum ty c) := by
  unfold activeCallMatch
  exact inferInstance

/-- Row selection of `attendOldestCallByType`/`cancelOldestCallByType`: the
matching active rows ordered by ascending `created_at_ts`, `limit 1` — i.e. a
row of minimum `created_at_ts` (ties resolved to the earliest stored row, a
deterministic refinement of the store's unspecified tie order). -/
def selectOldestActive (db : List DBCall) (estId tblNum : String) (ty : CallType) :
    Option DBCall :=
  match db.filter (fun c => activeCallMatch estId tblNum ty c) with
  | [] => none
  | a :: rest =>
    some (rest.foldl (fun x b => if b.created_at_ts < x.created_at_ts then b else x) a)

/-- `attendOldestCallByType` (hooks lines 387-394, part_002 lines 386-401):
if a matching active row exists, set the row with the selected id to
ATTENDED. -/
def attendOldestCallByType (db : List DBCall) (estId tblNum : String)
    (ty : CallType) : List DBCall :=
  match selectOldestActive db estId tblNum ty with
  | none => db
  | some chosen =>
    db.map fun c => if c.id = chosen.id then { c with status := .ATTENDED } else c

/-- `cancelOldestCallByType` (hooks lines 395-402, part_002 lines 368-384):
same selection, transition to CANCELED. -/
def cancelOldestCallByType (db : List DBCall) (estId tblNum : String)
    (ty : CallType) : List DBCall :=
  match selectOldestActive db estId tblNum ty with
  | none => db
  | some chosen =>
    db.map fun c => if c.id = chosen.id then { c with status := .CANCELED } else c

/-- The tie-stable minimum picker stays inside the candidate list. -/
lemma foldl_pickMin_mem (a : DBCall) (rest : List DBCall) :
    rest.foldl (fun x b => if b.created_at_ts < x.created_at_ts then b else x) a
      ∈ a :: rest := by
  induction rest generalizing a with
  | nil => simp
  | cons b l ih =>
    rw [List.foldl_cons]
    rcases List.mem_cons.mp (ih (if b.created_at_ts < a.created_at_ts then b else a))
        with h | h
    · rw [h]
      split_ifs <;> simp
    · exact List.mem_cons_of_mem _ (List.mem_cons_of_mem _ h)

/-- The picker's timestamp is the minimum timestamp of the candidates. -/
lemma foldl_pickMin_created (a : DBCall) (rest : List DBCall) :
    (rest.foldl (fun x b => if b.created_at_ts < x.created_at_ts then b else x)
        a).created_at_ts
      = (rest.map (fun c => c.created_at_ts)).foldl min a.created_at_ts := by
  induction rest generalizing a with
  | nil => rfl
  | cons b l ih =>
    simp only [List.foldl_cons, List.map_cons]
    rw [ih]
    congr 1
    by_cases h : b.created_at_ts < a.created_at_ts
    · rw [if_pos h]
      exact (min_eq_right h.le).symm
    · rw [if_neg h]
      exact (min_eq_left (not_lt.mp h)).symm

/-- `foldl min` bounds its initial value and every list element. -/
lemma foldl_min_le (xs : List ℚ) (i : ℚ) :
    xs.foldl min i ≤ i ∧ ∀ x ∈ xs, xs.foldl min i ≤ x := by
  induction xs generalizing i with
  | nil => exact ⟨le_rfl, by simp⟩
  | cons x l ih =>
    rw [List.foldl_cons]
    rcases ih (min i x) with ⟨h1, h2⟩
    refine ⟨le_trans h1 (min_le_left _ _), ?_⟩
    intro y hy
    rcases List.mem_cons.mp hy with rfl | hy2
    · exact le_trans h1 (min_le_right _ _)
    · exact h2 y hy2

/-- Selection returns nothing exactly when no row matches. -/
lemma selectOldestActive_eq_none_iff (db : List DBCall) (estId tblNum : String)
    (ty : CallType) :
    selectOldestActive db estId tblNum ty = none
      ↔ ∀ c ∈ db, ¬ activeCallMatch estId tblNum ty c := by
  unfold selectOldestActive
  cases hf : db.filter (fun c => activeCallMatch estId tblNum ty c) with
  | nil =>
    simp only [true_iff]
    intro c hc hm
    have : c ∈ db.filter (fun c => activeCallMatch estId tblNum ty c) :=
      List.mem_filter.mpr ⟨hc, by simpa using hm⟩
    rw [hf] at this
    cases this
  | cons a rest =>
    constructor
    · intro hc
      cases hc
    · intro hall
      have ha : a ∈ db.filter (fun c => activeCallMatch estId tblNum ty c) := by
        rw [hf]
        exact List.mem_cons_self _ _
      rcases List.mem_filter.mp ha with ⟨hmem, hpred⟩
      exact absurd (by simpa using hpred) (hall a hmem)

/-- What a successful selection guarantees: a matching active row of minimum
timestamp. -/
lemma selectOldestActive_spec {db : List DBCall} {estId tblNum : String}
    {ty : CallType} {chosen : DBCall}
    (h : selectOldestActive db estId tblNum ty = some chosen) :
    chosen ∈ db ∧ activeCallMatch estId tblNum ty chosen ∧
      ∀ c ∈ db, activeCallMatch estId tblNum ty c →
        chosen.created_at_ts ≤ c.created_at_ts := by
  unfold selectOldestActive at h
  cases hf : db.filter (fun c => activeCallMatch estId tblNum ty c) with
  | nil => rw [hf] at h; cases h
  | cons a rest =>
    rw [hf] at h
    have hmem := foldl_pickMin_mem a rest
    rw [Option.some_inj] at h
    rw [h] at hmem
    have hmemf : chosen ∈ db.filter (fun c => activeCallMatch estId tblNum ty c) := by
      rw [hf]
      exact hmem
    rcases List.mem_filter.mp hmemf with ⟨hdb, hpred⟩
    refine ⟨hdb, by simpa using hpred, ?_⟩
    intro c hc hm
    have hcf : c ∈ db.filter (fun x => activeCallMatch estId tblNum ty x) :=
      List.mem_filter.mpr ⟨hc, by simpa using hm⟩
    rw [hf] at hcf
    rw [← h, foldl_pickMin_created]
    rcases foldl_min_le (rest.map fun x => x.created_at_ts) a.created_at_ts
        with ⟨h1, h2⟩
    rcases List.mem_cons.mp hcf with rfl | hcr
    · exact h1
    · exact h2 _ (List.mem_map_of_mem _ hcr)

/-- C6: `attendOldestCallByType` (resp. `cancelOldestCallByType`) is a no-op
when the table has no active call of the type; otherwise it rewrites exactly
the selected row — a matching active row of minimum `created_at_ts` — to
ATTENDED (resp. CANCELED), and every row with a different id (in particular
every call of another type, another table, or another establishment) is
returned unchanged at its position.  Row ids are assumed unique, as database
primary keys are. -/
theorem claim_C6 (db : List DBCall) (estId tblNum : String) (ty : CallType)
    (hids : (db.map fun c => c.id).Nodup) :
    (selectOldestActive db estId tblNum ty = none ↔
      ∀ c ∈ db, ¬ activeCallMatch estId tblNum ty c) ∧
    (selectOldestActive db estId tblNum ty = none →
      attendOldestCallByType db estId tblNum ty = db ∧
      cancelOldestCallByType db estId tblNum ty = db) ∧
    (∀ chosen, selectOldestActive db estId tblNum ty = some chosen →
      chosen ∈ db ∧ activeCallMatch estId tblNum ty chosen ∧
      (∀ c ∈ db, activeCallMatch estId tblNum ty c →
        chosen.created_at_ts ≤ c.created_at_ts) ∧
      { chosen with status := CallStatus.ATTENDED } ≠ chosen ∧
      { chosen with status := CallStatus.CANCELED } ≠ chosen ∧
      (∀ (i : ℕ) (c : DBCall), db[i]? = some c →
        (c.id = chosen.id →
          c = chosen ∧
          (attendOldestCallByType db estId tblNum ty)[i]?
            = some { chosen with status := CallStatus.ATTENDED } ∧
          (cancelOldestCallByType db estId tblNum ty)[i]?
            = some { chosen with status := CallStatus.CANCELED }) ∧
        (c.id ≠ chosen.id →
          (attendOldestCallByType db estId tblNum ty)[i]? = some c ∧
          (cancelOldestCallByType db estId tblNum ty)[i]? = some c))) := by
  refine ⟨selectOldestActive_eq_none_iff db estId tblNum ty, ?_, ?_⟩
  · intro h
    unfold attendOldestCallByType cancelOldestCallByType
    rw [h]
    exact ⟨rfl, rfl⟩
  · intro chosen h
    rcases selectOldestActive_spec h with ⟨hdb, hm, hmin⟩
    have hstat : chosen.status = CallStatus.SENT ∨ chosen.status = CallStatus.VIEWED :=
      hm.2.2.2
    refine ⟨hdb, hm, hmin, ?_, ?_, ?_⟩
    · intro heq
      have := congrArg DBCall.status heq
      rcases hstat with hs | hs <;> rw [hs] at this <;> cases this
    · intro heq
      have := congrArg DBCall.status heq
      rcases hstat with hs | hs <;> rw [hs] at this <;> cases this
    · intro i c hic
      have hcdb : c ∈ db := by
        rcases List.getElem?_eq_some_iff.mp hic with ⟨hlt, hg⟩
        exact hg ▸ List.getElem_mem hlt
      constructor
      · intro hid
        have hceq : c = chosen := List.inj_on_of_nodup_map hids hcdb hdb hid
        refine ⟨hceq, ?_, ?_⟩
        · unfold attendOldestCallByType
          rw [h, List.getElem?_map, hic]
          simp only [Option.map_some']
          rw [if_pos hid, hceq]
        · unfold cancelOldestCallByType
          rw [h, List.getElem?_map, hic]
          simp only [Option.map_some']
          rw [if_pos hid, hceq]
      · intro hid
        constructor
        · unfold attendOldestCallByType
          rw [h, List.getElem?_map, hic]
          simp only [Option.map_some']
          rw [if_neg hid]
        · unfold cancelOldestCallByType
          rw [h, List.getElem?_map, hic]
          simp only [Option.map_some']
          rw [if_neg hid]

/-- The three-row calls table of the C6 witness: two active WAITER calls on
table "1" (timestamps 5 and 3) and an active BILL call on table "2". -/
def dbC6 : List DBCall :=
  [⟨"a1", "e", "1", .WAITER, .VIEWED, 5⟩,
   ⟨"a2", "e", "1", .WAITER, .SENT, 3⟩,
   ⟨"a3", "e", "2", .BILL, .SENT, 1⟩]

/-- Witness for C6: ids are unique, the selected WAITER call on table "1" is
the older one ("a2", timestamp 3), and attending transitions exactly that row
to ATTENDED, leaving the other WAITER call and the BILL call untouched. -/
theorem claim_C6_wit :
    ((dbC6.map fun c => c.id).Nodup ∧
      selectOldestActive dbC6 "e" "1" .WAITER
        = some ⟨"a2", "e", "1", .WAITER, .SENT, 3⟩) ∧
    ((⟨"a2", "e", "1", .WAITER, .SENT, 3⟩ : DBCall) ∈ dbC6 ∧
      activeCallMatch "e" "1" .WAITER (⟨"a2", "e", "1", .WAITER, .SENT, 3⟩ : DBCall)) ∧
    attendOldestCallByType dbC6 "e" "1" .WAITER
      = [⟨"a1", "e", "1", .WAITER, .VIEWED, 5⟩,
         ⟨"a2", "e", "1", .WAITER, .ATTENDED, 3⟩,
         ⟨"a3", "e", "2", .BILL, .SENT, 1⟩] :=
  ⟨⟨by decide, by decide⟩,
    (fun hs => ⟨hs.1, hs.2.1⟩)
      ((claim_C6 dbC6 "e" "1" .WAITER (by decide)).2.2
        ⟨"a2", "e", "1", .WAITER, .SENT, 3⟩ (by decide)),
    by decide⟩

/-! ## SyncEngine: polling cycle re-entrancy guard (hooks lines 119-161) -/

/-- The state behind the polling effect of `src/hooks/useMockData.ts` (lines
119-161): the live `isUpdating` React state — what `setIsUpdating` writes —
and the number of cycle bodies currently running (between the
`setIsUpdating(true)` of line 124 and the `finally` of lines 153-155). -/
structure CycleState where
  isUpdating : Bool
  inFlight : ℕ
deriving DecidableEq, Repr

/-- Events of the polling effect: the interval timer invoking `cycle`, and a
running body finishing — successfully or by throwing into the `catch`. -/
inductive SyncEvent where
  | tick
  | finishOk
  | finishErr
deriving DecidableEq, Repr

/-- One event of the installed interval, with React closure semantics:
`cycle` (lines 122-156) is the closure created at the render that ran the
effect, so the `if (isUpdating) return` of line 123 reads `captured` — the
value the `isUpdating` binding had at that render, fixed for the lifetime of
the interval because the effect's dependency array (line 161) lists only
`currentUser?.id` and `currentUser?.establishmentId`, not `isUpdating`.
`setIsUpdating(true)` (line 124) writes the live state, which this closure
never re-reads; the `finally` (lines 153-155) writes it back to false on both
the success and the error exit of the body. -/
def cycleStep (captured : Bool) (s : CycleState) : SyncEvent → CycleState
  | .tick =>
    if captured then s
    else { isUpdating := true, inFlight := s.inFlight + 1 }
  | .finishOk =>
    if s.inFlight = 0 then s
    else { isUpdating := false, inFlight := s.inFlight - 1 }
  | .finishErr =>
    if s.inFlight = 0 then s
    else { isUpdating := false, inFlight := s.inFlight - 1 }

/-- A run of the interval installed when the effect mounts: `useState(false)`
means the render whose `cycle` the interval holds captured
`isUpdating = false`, and nothing is in flight yet. -/
def cycleRun (evs : List SyncEvent) : CycleState :=
  evs.foldl (cycleStep false) ⟨false, 0⟩

/-- C8 (code bug).  The guard compares against the closure's captured
`isUpdating` — `false` for the interval installed at mount — never the live
state: after a first tick the live flag is set and one body runs, yet a
second tick arriving before any finish starts a second body instead of being
skipped, so two fetches are in flight whenever the fetch latency exceeds the
polling interval — contradicting the claim's "the new tick is skipped
entirely" and "at most one refresh cycle in flight".  Only the release half
of the claim holds in the code: the `finally` clears the live flag on both
the success and the error exit. -/
theorem claim_C8 :
    (cycleRun [SyncEvent.tick]).isUpdating = true ∧
    (cycleRun [SyncEvent.tick]).inFlight = 1 ∧
    (cycleRun [SyncEvent.tick, SyncEvent.tick]).inFlight = 2 ∧
    (¬ (cycleRun [SyncEvent.tick, SyncEvent.tick]).inFlight ≤ 1) ∧
    (cycleStep false ⟨true, 2⟩ SyncEvent.finishOk).isUpdating = false ∧
    (cycleStep false ⟨true, 2⟩ SyncEvent.finishErr).isUpdating = false :=
  ⟨by decide, by decide, by decide, by decide, by decide, by decide⟩

/-! ## Heartbeat vs closing the workday (hooks lines 126-132, 165-173, 376-381) -/
/-- `sendHeartbeat` (hooks lines 165-173): unconditionally writes
`is_open = true` on the establishment's remote row. -/
def sendHeartbeat (rows : List EstRow) (estId : String) : List EstRow :=
  rows.map fun r => if r.id = estId then { r with is_open := true } else r

/-- `closeEstablishmentWorkday` (hooks lines 376-381): set the remote row's
`is_open` to false and cancel every active call of the establishment. -/
def closeEstablishmentWorkday (rows : List EstRow) (calls : List DBCall)
    (id : String) : List EstRow × List DBCall :=
  (rows.map fun r => if r.id = id then { r with is_open := false } else r,
   calls.map fun c =>
     if c.establishment_id = id ∧ (c.status = .SENT ∨ c.status = .VIEWED)
     then { c with status := .CANCELED } else c)

/-- The remote `establishments` effect of one polling `cycle` (hooks lines
122-132): when the guard admits the tick and the logged-in user is an
establishment owner with a known `establishmentId`, the cycle runs
`sendHeartbeat` on that id (alongside `loadEstablishmentData`); in every
other case the establishments table is untouched. -/
def cycleHeartbeat (isUpdating : Bool) (user : User) (rows : List EstRow) :
    List EstRow :=
  if isUpdating then rows
  else if user.role = .ESTABLISHMENT then
    match user.establishmentId with
    | some eid => sendHeartbeat rows eid
    | none => rows
  else rows

/-- C10: the heartbeat unconditionally rewrites the owner's remote row to
`is_open = true`; hence after `closeEstablishmentWorkday` has set it to
false, the very next admitted polling cycle of the still-logged-in owner
flips it back to true. -/
theorem claim_C10 (user : User) (rows : List EstRow) (calls : List DBCall)
    (eid : String) (hrole : user.role = Role.ESTABLISHMENT)
    (hid : user.establishmentId = some eid) :
    (∀ r ∈ sendHeartbeat rows eid, r.id = eid → r.is_open = true) ∧
    (∀ r ∈ (closeEstablishmentWorkday rows calls eid).1, r.id = eid →
      r.is_open = false) ∧
    (∀ r ∈ cycleHeartbeat false user (closeEstablishmentWorkday rows calls eid).1,
      r.id = eid → r.is_open = true) := by
  have hsb : ∀ (rows2 : List EstRow), ∀ r ∈ sendHeartbeat rows2 eid,
      r.id = eid → r.is_open = true := by
    intro rows2 r hr hrid
    unfold sendHeartbeat at hr
    rcases List.mem_map.mp hr with ⟨r0, _, rfl⟩
    by_cases h0 : r0.id = eid
    · rw [if_pos h0]
    · rw [if_neg h0] at hrid ⊢
      exact absurd hrid h0
  refine ⟨hsb rows, ?_, ?_⟩
  · intro r hr hrid
    rcases List.mem_map.mp hr with ⟨r0, _, rfl⟩
    by_cases h0 : r0.id = eid
    · rw [if_pos h0]
    · rw [if_neg h0] at hrid ⊢
      exact absurd hrid h0
  · intro r hr hrid
    unfold cycleHeartbeat at hr
    rw [if_neg (by simp), if_pos hrole, hid] at hr
    exact hsb _ r hr hrid

/-- Witness for C10: a concrete owner whose establishment row was closed has
`is_open = true` again after the next cycle's heartbeat. -/
theorem claim_C10_wit :
    (ownerC5.role = Role.ESTABLISHMENT ∧ ownerC5.establishmentId = some "E") ∧
    (∀ r ∈ cycleHeartbeat false ownerC5
        (closeEstablishmentWorkday [⟨"E", "u1", "Resto", "1", "", "", true, none⟩]
          [] "E").1,
      r.id = "E" → r.is_open = true) :=
  ⟨⟨by decide, by decide⟩,
    (claim_C10 ownerC5 [⟨"E", "u1", "Resto", "1", "", "", true, none⟩] [] "E"
      (by decide) (by decide)).2.2⟩

end MesaFacil
